import Mathlib

/-!
Verification development for the golden-burger trading bots.

The definitions below are a shallow embedding of the Python sources:

* `src/golden-banana/src/polybot/strategy/momentum.py` (MomentumCalculator)
* `src/golden-banana/src/polybot/strategy/trader.py` (Trader.execute_buy / execute_sell)
* `src/golden-cherry/src/polybot/strategy/scanner.py` (is_valid_time_entry)
* `src/golden-apple/src/polybot/db/models.py` and `repository.py` (Trade store)
* `src/golden-apple/src/polybot/strategy/trader.py` (Trader.execute_buy)

Python floats are modelled as exact rationals `ℚ`; wall-clock timestamps are
modelled as rationals (seconds); the SQLite store is modelled as explicit
lists of rows, with the `unique=True` column constraints modelled as an
`Except`-style error on duplicate insert (SQLAlchemy raises `IntegrityError`
and the commit fails, leaving the table unchanged).
-/

namespace GoldenBurger

/-- Row of the `market_snapshots` table (`models.py`, class MarketSnapshot).
Only the `probability` column is read by the momentum computations. -/
structure MarketSnapshot where
  probability : ℚ
deriving Repr, DecidableEq

/-- `MomentumConfig` dataclass (`golden-banana/src/polybot/config.py`).
Defaults as in the source; `dead_cross_threshold` is stored signed (−0.02). -/
structure MomentumConfig where
  enabled : Bool := true
  short_window : Nat := 3
  long_window : Nat := 72
  golden_cross_threshold : ℚ := 2/100
  dead_cross_threshold : ℚ := -(2/100)
deriving Repr, DecidableEq

/-- Python list slice `l[-k:]` for a nonnegative integer `k`
(`l[-0:]` is the whole list, as in Python). -/
def sliceLast {α : Type} (k : Nat) (l : List α) : List α :=
  if k = 0 then l else l.drop (l.length - k)

/-- `MomentumCalculator.calculate_momentum`: `None` on fewer than 2 snapshots,
else `(newest.probability - oldest.probability) / len(snapshots)`.
(The source's second `len(snapshots) == 0` guard is unreachable and omitted.) -/
def calculate_momentum (snapshots : List MarketSnapshot) : Option ℚ :=
  if snapshots.length < 2 then none
  else
    match snapshots.head?, snapshots.getLast? with
    | some oldest, some newest =>
        some ((newest.probability - oldest.probability) / (snapshots.length : ℚ))
    | _, _ => none

/-- `MomentumCalculator.get_short_momentum`. -/
def get_short_momentum (cfg : MomentumConfig) (snapshots : List MarketSnapshot) :
    Option ℚ :=
  if snapshots.length < cfg.short_window then none
  else calculate_momentum (sliceLast cfg.short_window snapshots)

/-- `MomentumCalculator.get_long_momentum`: last `long_window` snapshots, with a
fallback to the whole list when at least `short_window * 2` points exist. -/
def get_long_momentum (cfg : MomentumConfig) (snapshots : List MarketSnapshot) :
    Option ℚ :=
  if snapshots.length < cfg.long_window then
    if cfg.short_window * 2 ≤ snapshots.length then calculate_momentum snapshots
    else none
  else calculate_momentum (sliceLast cfg.long_window snapshots)

/-- `MomentumCalculator.detect_golden_cross`:
false when either momentum is `None`, else `short - long ≥ golden_cross_threshold`. -/
def detect_golden_cross (cfg : MomentumConfig)
    (short_momentum long_momentum : Option ℚ) : Bool :=
  match short_momentum, long_momentum with
  | some s, some l => decide (cfg.golden_cross_threshold ≤ s - l)
  | _, _ => false

/-- `MomentumCalculator.detect_dead_cross`:
false when either momentum is `None`, else `short - long ≤ dead_cross_threshold`. -/
def detect_dead_cross (cfg : MomentumConfig)
    (short_momentum long_momentum : Option ℚ) : Bool :=
  match short_momentum, long_momentum with
  | some s, some l => decide (s - l ≤ cfg.dead_cross_threshold)
  | _, _ => false

/-- `MomentumCalculator.get_entry_signal`. The `current_probability` argument is
present in the source signature but unused by the logic. -/
def get_entry_signal (cfg : MomentumConfig) (snapshots : List MarketSnapshot)
    (_current_probability : ℚ) : Bool × String :=
  if !cfg.enabled then (true, "momentum_disabled")
  else
    match get_short_momentum cfg snapshots with
    | none => (false, "insufficient_short_data")
    | some short_mom =>
      match get_long_momentum cfg snapshots with
      | none =>
          if 0 < short_mom then (true, "short_momentum_positive")
          else (false, "short_momentum_negative")
      | some long_mom =>
          if detect_golden_cross cfg (some short_mom) (some long_mom) then
            (true, "golden_cross")
          else (false, "no_signal")

/-- `MomentumCalculator.get_exit_signal`: stop-loss, then take-profit, then
dead-cross (only when momentum is enabled and both momenta are available). -/
def get_exit_signal (cfg : MomentumConfig) (snapshots : List MarketSnapshot)
    (entry_price current_price take_profit stop_loss : ℚ) : Bool × String :=
  let pnl_percent : ℚ :=
    if entry_price = 0 then 0 else (current_price - entry_price) / entry_price
  if pnl_percent ≤ stop_loss then (true, "stop_loss")
  else if take_profit ≤ pnl_percent then (true, "take_profit")
  else if cfg.enabled then
    match get_short_momentum cfg snapshots, get_long_momentum cfg snapshots with
    | some short_mom, some long_mom =>
        if detect_dead_cross cfg (some short_mom) (some long_mom) then
          (true, "dead_cross")
        else (false, "hold")
    | _, _ => (false, "hold")
  else (false, "hold")

/-! Time-based entry window (`golden-cherry/src/polybot/strategy/scanner.py`).
Datetimes are modelled as rationals counting seconds; `get_hours_until_resolution`
reads the current clock, modelled here as an explicit `now` argument. The source
returns reason strings such as `"too_early_23.5h"`; the decimal formatting of the
hours payload is abstracted into a constructor argument. -/

/-- Reason component of the `is_valid_time_entry` result tuple. -/
inductive TimeEntryReason where
  | no_end_date : TimeEntryReason
  | already_resolved : TimeEntryReason
  | too_early (hours_left : ℚ) : TimeEntryReason
  | too_late (hours_left : ℚ) : TimeEntryReason
  | time_based (hours_left : ℚ) : TimeEntryReason
deriving Repr, DecidableEq

/-- `get_hours_until_resolution`: `(end_date - now).total_seconds() / 3600`. -/
def get_hours_until_resolution (end_date : Option ℚ) (now : ℚ) : Option ℚ :=
  match end_date with
  | none => none
  | some e => some ((e - now) / 3600)

/-- `is_valid_time_entry(end_date, entry_hours_max, entry_hours_min)`:
returns `(is_valid, reason, hours_left)`. -/
def is_valid_time_entry (end_date : Option ℚ) (now : ℚ)
    (entry_hours_max entry_hours_min : Int) :
    Bool × TimeEntryReason × Option ℚ :=
  match get_hours_until_resolution end_date now with
  | none => (false, .no_end_date, none)
  | some hours_left =>
    if hours_left ≤ 0 then (false, .already_resolved, some hours_left)
    else if (entry_hours_max : ℚ) < hours_left then
      (false, .too_early hours_left, some hours_left)
    else if hours_left < (entry_hours_min : ℚ) then
      (false, .too_late hours_left, some hours_left)
    else (true, .time_based hours_left, some hours_left)

/-! Trade store (`golden-apple/src/polybot/db/models.py` and `repository.py`).
`Trade.condition_id` and `SkippedMarket.condition_id` carry `unique=True`
column constraints, so inserting a duplicate raises `IntegrityError`;
this is modelled as an `Except DBError` result that leaves the store
unchanged. Timestamp columns are omitted (wall clock, unread by the
modelled logic). -/

/-- `TradeStatus` enum. -/
inductive TradeStatus where
  | pending_buy : TradeStatus
  | holding : TradeStatus
  | pending_sell : TradeStatus
  | completed : TradeStatus
  | skipped_status : TradeStatus
deriving Repr, DecidableEq

/-- Terminal statuses are `completed` and the skipped status; the rest are
non-terminal (an open or in-flight position). -/
def TradeStatus.nonTerminal : TradeStatus → Bool
  | .pending_buy => true
  | .holding => true
  | .pending_sell => true
  | .completed => false
  | .skipped_status => false

/-- Row of the `trades` table. Fields populated by the traders' `create_trade`
calls; the momentum-strategy columns (`entry_reason`, momentum readings at buy)
are optional and unused by the golden-apple variant. -/
structure Trade where
  id : Nat
  condition_id : String
  market_slug : String
  question : String
  outcome : String
  token_id : String
  buy_price : Option ℚ := none
  buy_amount : Option ℚ := none
  buy_shares : Option ℚ := none
  buy_order_id : Option String := none
  buy_probability : Option ℚ := none
  liquidity_at_buy : Option ℚ := none
  status : TradeStatus := .pending_buy
  entry_reason : Option String := none
  short_momentum_at_buy : Option ℚ := none
  long_momentum_at_buy : Option ℚ := none
deriving Repr, DecidableEq

/-- Row of the `skipped_markets` table. -/
structure SkippedMarket where
  condition_id : String
  reason : String
deriving Repr, DecidableEq

/-- The SQLite store: the two tables the repository claims are about. -/
structure Store where
  trades : List Trade
  skipped_markets : List SkippedMarket
deriving Repr, DecidableEq

/-- The empty store produced by `init_database`. -/
def Store.empty : Store := ⟨[], []⟩

/-- Database error: violation of a `unique=True` column constraint. -/
inductive DBError where
  | unique_violation : DBError
deriving Repr, DecidableEq

/-- `TradeRepository.get_by_condition_id`: first trade row with the given
condition id. -/
def get_by_condition_id (st : Store) (condition_id : String) : Option Trade :=
  st.trades.find? (fun t => t.condition_id == condition_id)

/-- `TradeRepository.is_already_traded`: a Trade (any status) or a
SkippedMarket row exists for the condition id. -/
def is_already_traded (st : Store) (condition_id : String) : Bool :=
  (get_by_condition_id st condition_id).isSome ||
    (st.skipped_markets.find? (fun s => s.condition_id == condition_id)).isSome

/-- `TradeRepository.create_trade`: insert a Trade row; the `unique=True`
constraint on `condition_id` rejects a duplicate at commit. -/
def create_trade (st : Store) (t : Trade) : Except DBError Store :=
  if st.trades.any (fun u => u.condition_id == t.condition_id) then
    .error .unique_violation
  else .ok { st with trades := st.trades ++ [t] }

/-- `TradeRepository.mark_as_skipped`: insert a SkippedMarket row; the
`unique=True` constraint on `condition_id` rejects a duplicate at commit. -/
def mark_as_skipped (st : Store) (condition_id reason : String) :
    Except DBError Store :=
  if st.skipped_markets.any (fun s => s.condition_id == condition_id) then
    .error .unique_violation
  else .ok { st with skipped_markets := st.skipped_markets ++ [⟨condition_id, reason⟩] }

/-- `TradeRepository.get_position_count`: number of HOLDING trades. -/
def get_position_count (st : Store) : Nat :=
  (st.trades.filter (fun t => t.status == TradeStatus.holding)).length

/-- `TradeRepository.update_trade` as invoked by the traders: they update
status, sell and P&L columns of one row, never its `condition_id`. -/
def update_trade_status (st : Store) (trade_id : Nat) (new_status : TradeStatus) :
    Store :=
  { st with trades := st.trades.map (fun t =>
      if t.id == trade_id then { t with status := new_status } else t) }

/-! Traders. External collaborators are modelled as explicit inputs:
`midpoint` is the result of `clob.get_midpoint` (`none` when the call raised),
`order` is the response of `clob.place_limit_order`, and the freshly assigned
row id of `create_trade` is passed as `new_id`. -/

/-- Polymarket minimum order size (`trader.py`, module constant). -/
def MIN_ORDER_SIZE : ℚ := 5

/-- Response of `place_limit_order`; the source accepts it when
`result.get("success") or result.get("orderID")` is truthy. -/
structure OrderResult where
  success : Bool
  orderID : Option String
deriving Repr, DecidableEq

/-- Order acceptance test of the source. -/
def OrderResult.accepted (r : OrderResult) : Bool :=
  r.success || r.orderID.isSome

namespace Apple

/-- `TradingConfig` dataclass (`golden-apple/src/polybot/config.py`), the
fields read by `Trader.execute_buy`. -/
structure TradingConfig where
  buy_threshold : ℚ := 80/100
  sell_threshold : ℚ := 90/100
  buy_amount_usdc : ℚ := 10
  max_positions : Int := -1
deriving Repr, DecidableEq

/-- Candidate dictionary consumed by `golden-apple`'s `Trader.execute_buy`. -/
structure Candidate where
  condition_id : String
  token_id : String
  probability : ℚ
  outcome : String
  question : String
  market_slug : String
  liquidity : ℚ
deriving Repr, DecidableEq

/-- Trade row assembled by `golden-apple`'s `create_trade(...)` call inside
`execute_buy` (kwargs of the call, wall-clock timestamp omitted). -/
def buy_trade_row (cfg : TradingConfig) (cand : Candidate) (order : OrderResult)
    (new_id : Nat) (current_price : ℚ) : Trade :=
  { id := new_id
    condition_id := cand.condition_id
    market_slug := cand.market_slug
    question := cand.question
    outcome := cand.outcome
    token_id := cand.token_id
    buy_price := some current_price
    buy_amount := some cfg.buy_amount_usdc
    buy_shares := some (cfg.buy_amount_usdc / current_price)
    buy_order_id := order.orderID
    buy_probability := some current_price
    liquidity_at_buy := some cand.liquidity
    status := TradeStatus.holding }

/-- `golden-apple` `Trader.execute_buy`: already-traded gate, max-positions
gate, price re-verification (skip and mark `rapid_jump` at or above the sell
threshold, reject below the buy threshold), minimum order size, then order
placement; a Trade row in HOLDING is created only on order acceptance. -/
def execute_buy (cfg : TradingConfig) (st : Store) (cand : Candidate)
    (midpoint : Option ℚ) (order : OrderResult) (new_id : Nat) :
    Except DBError (Option Nat × Store) :=
  if is_already_traded st cand.condition_id then .ok (none, st)
  else if 0 < cfg.max_positions ∧ cfg.max_positions ≤ (get_position_count st : Int) then
    .ok (none, st)
  else
    match midpoint with
    | none => .ok (none, st)
    | some current_price =>
      if cfg.sell_threshold ≤ current_price then
        match mark_as_skipped st cand.condition_id "rapid_jump" with
        | .error e => .error e
        | .ok st' => .ok (none, st')
      else if current_price < cfg.buy_threshold then .ok (none, st)
      else
        let buy_shares := cfg.buy_amount_usdc / current_price
        if buy_shares < MIN_ORDER_SIZE then .ok (none, st)
        else if order.accepted then
          match create_trade st (buy_trade_row cfg cand order new_id current_price) with
          | .error e => .error e
          | .ok st' => .ok (some new_id, st')
        else .ok (none, st)

end Apple

namespace Banana

/-- `TradingConfig` dataclass (`golden-banana/src/polybot/config.py`), the
fields read by the momentum-variant `Trader`. -/
structure TradingConfig where
  buy_threshold : ℚ := 85/100
  sell_threshold : ℚ := 97/100
  buy_amount_usdc : ℚ := 10
  max_positions : Int := -1
  take_profit_percent : ℚ := 7/100
  stop_loss_percent : ℚ := -(10/100)
  momentum : MomentumConfig := {}
deriving Repr, DecidableEq

/-- Candidate dictionary consumed by `golden-banana`'s `Trader.execute_buy`;
`entry_reason` is optional (`candidate.get("entry_reason", "unknown")`). -/
structure Candidate where
  condition_id : String
  token_id : String
  probability : ℚ
  outcome : String
  question : String
  market_slug : String
  liquidity : ℚ
  entry_reason : Option String := none
deriving Repr, DecidableEq

/-- `Trader._get_momentum_info`: `(None, None)` when the momentum calculator is
disabled, else the short/long momenta over the market's recent snapshots. -/
def get_momentum_info (cfg : TradingConfig) (snapshots : List MarketSnapshot) :
    Option ℚ × Option ℚ :=
  if cfg.momentum.enabled then
    (get_short_momentum cfg.momentum snapshots, get_long_momentum cfg.momentum snapshots)
  else (none, none)

/-- Trade row assembled by `golden-banana`'s `create_trade(...)` call inside
`execute_buy` (kwargs of the call, wall-clock timestamp omitted). -/
def buy_trade_row (cfg : TradingConfig) (cand : Candidate)
    (snapshots : List MarketSnapshot) (order : OrderResult) (new_id : Nat)
    (current_price : ℚ) : Trade :=
  { id := new_id
    condition_id := cand.condition_id
    market_slug := cand.market_slug
    question := cand.question
    outcome := cand.outcome
    token_id := cand.token_id
    buy_price := some current_price
    buy_amount := some cfg.buy_amount_usdc
    buy_shares := some (cfg.buy_amount_usdc / current_price)
    buy_order_id := order.orderID
    buy_probability := some current_price
    liquidity_at_buy := some cand.liquidity
    status := TradeStatus.holding
    entry_reason := some (cand.entry_reason.getD "unknown")
    short_momentum_at_buy := (get_momentum_info cfg snapshots).1
    long_momentum_at_buy := (get_momentum_info cfg snapshots).2 }

/-- `golden-banana` `Trader.execute_buy`. Differs from the golden-apple variant
in the strict rapid-jump comparison (`price > sell_threshold`) and in the
momentum metadata stored on the created Trade row. -/
def execute_buy (cfg : TradingConfig) (st : Store) (cand : Candidate)
    (snapshots : List MarketSnapshot) (midpoint : Option ℚ) (order : OrderResult)
    (new_id : Nat) : Except DBError (Option Nat × Store) :=
  if is_already_traded st cand.condition_id then .ok (none, st)
  else if 0 < cfg.max_positions ∧ cfg.max_positions ≤ (get_position_count st : Int) then
    .ok (none, st)
  else
    match midpoint with
    | none => .ok (none, st)
    | some current_price =>
      if cfg.sell_threshold < current_price then
        match mark_as_skipped st cand.condition_id "rapid_jump" with
        | .error e => .error e
        | .ok st' => .ok (none, st')
      else if current_price < cfg.buy_threshold then .ok (none, st)
      else
        let buy_shares := cfg.buy_amount_usdc / current_price
        if buy_shares < MIN_ORDER_SIZE then .ok (none, st)
        else if order.accepted then
          match create_trade st
              (buy_trade_row cfg cand snapshots order new_id current_price) with
          | .error e => .error e
          | .ok st' => .ok (some new_id, st')
        else .ok (none, st)

/-- Decision part of `golden-banana` `Trader.execute_sell`: the probability
threshold is checked first; momentum-based exit conditions (`get_exit_signal`)
are reached only in the `elif` branch, when the price is below the threshold
and the momentum calculator exists; with momentum disabled only price-based
stop-loss/take-profit are checked. Returns `(should_sell, exit_reason)`. -/
def execute_sell_decision (cfg : TradingConfig) (buy_price : ℚ)
    (snapshots : List MarketSnapshot) (current_price : ℚ) : Bool × String :=
  if cfg.sell_threshold ≤ current_price then (true, "threshold")
  else if cfg.momentum.enabled then
    get_exit_signal cfg.momentum snapshots buy_price current_price
      cfg.take_profit_percent cfg.stop_loss_percent
  else if 0 < buy_price then
    let pnl_percent := (current_price - buy_price) / buy_price
    if pnl_percent ≤ cfg.stop_loss_percent then (true, "stop_loss")
    else if cfg.take_profit_percent ≤ pnl_percent then (true, "take_profit")
    else (false, "hold")
  else (false, "hold")

end Banana

/-! Reachable store states. The bots mutate the two tables only through the
repository operations modelled above: `execute_buy` (either variant),
`mark_as_skipped` from the scanners, `create_trade`, and the traders'
`update_trade` calls (which never touch `condition_id`). -/

/-- One store mutation by the system. -/
inductive Step : Store → Store → Prop where
  | buy_apple (cfg : Apple.TradingConfig) (st : Store) (cand : Apple.Candidate)
      (midpoint : Option ℚ) (order : OrderResult) (new_id : Nat)
      (r : Option Nat) (st' : Store)
      (h : Apple.execute_buy cfg st cand midpoint order new_id = .ok (r, st')) :
      Step st st'
  | buy_banana (cfg : Banana.TradingConfig) (st : Store) (cand : Banana.Candidate)
      (snapshots : List MarketSnapshot) (midpoint : Option ℚ) (order : OrderResult)
      (new_id : Nat) (r : Option Nat) (st' : Store)
      (h : Banana.execute_buy cfg st cand snapshots midpoint order new_id
            = .ok (r, st')) :
      Step st st'
  | create (st : Store) (t : Trade) (st' : Store)
      (h : create_trade st t = .ok st') : Step st st'
  | skip (st : Store) (condition_id reason : String) (st' : Store)
      (h : mark_as_skipped st condition_id reason = .ok st') : Step st st'
  | update (st : Store) (trade_id : Nat) (new_status : TradeStatus) :
      Step st (update_trade_status st trade_id new_status)

/-- Store states reachable from the fresh database. -/
inductive Reachable : Store → Prop where
  | init : Reachable Store.empty
  | step {st st' : Store} (hr : Reachable st) (hs : Step st st') : Reachable st'

/-- At most one Trade row per condition id (any status). -/
def trades_unique (st : Store) : Prop :=
  ∀ cid : String,
    (st.trades.filter (fun t => t.condition_id == cid)).length ≤ 1

/-- At most one SkippedMarket row per condition id. -/
def skipped_unique (st : Store) : Prop :=
  ∀ cid : String,
    (st.skipped_markets.filter (fun s => s.condition_id == cid)).length ≤ 1

lemma filter_singleton_length_le_one {α : Type} (p : α → Bool) (a : α) :
    ([a].filter p).length ≤ 1 := by
  by_cases h : p a = true
  · simp [List.filter, h]
  · simp [List.filter, h]

lemma except_ok_pair {ε α β : Type} {a r : α} {b s : β}
    (h : (Except.ok (a, b) : Except ε (α × β)) = .ok (r, s)) : r = a ∧ s = b := by
  injection h with h2
  injection h2 with h3 h4
  exact ⟨h3.symm, h4.symm⟩

lemma apple_execute_buy_cases (cfg : Apple.TradingConfig) (st : Store)
    (cand : Apple.Candidate) (midpoint : Option ℚ) (order : OrderResult)
    (new_id : Nat) (r : Option Nat) (st' : Store)
    (h : Apple.execute_buy cfg st cand midpoint order new_id = .ok (r, st')) :
    (st' = st ∧ r = none) ∨
    (mark_as_skipped st cand.condition_id "rapid_jump" = .ok st' ∧ r = none) ∨
    (order.accepted = true ∧ ∃ current_price : ℚ, midpoint = some current_price ∧
      create_trade st (Apple.buy_trade_row cfg cand order new_id current_price)
        = .ok st' ∧ r = some new_id) := by
  simp only [Apple.execute_buy] at h
  split at h
  · exact Or.inl ⟨(except_ok_pair h).2, (except_ok_pair h).1⟩
  · split at h
    · exact Or.inl ⟨(except_ok_pair h).2, (except_ok_pair h).1⟩
    · split at h
      · exact Or.inl ⟨(except_ok_pair h).2, (except_ok_pair h).1⟩
      · rename_i current_price
        split at h
        · split at h
          · exact Except.noConfusion h
          · rename_i st'' hsk
            exact Or.inr (Or.inl ⟨(except_ok_pair h).2 ▸ hsk, (except_ok_pair h).1⟩)
        · split at h
          · exact Or.inl ⟨(except_ok_pair h).2, (except_ok_pair h).1⟩
          · split at h
            · exact Or.inl ⟨(except_ok_pair h).2, (except_ok_pair h).1⟩
            · split at h
              · rename_i hacc
                split at h
                · exact Except.noConfusion h
                · rename_i st'' hct
                  exact Or.inr (Or.inr ⟨hacc, current_price, rfl,
                    (except_ok_pair h).2 ▸ hct, (except_ok_pair h).1⟩)
              · exact Or.inl ⟨(except_ok_pair h).2, (except_ok_pair h).1⟩

lemma banana_execute_buy_cases (cfg : Banana.TradingConfig) (st : Store)
    (cand : Banana.Candidate) (snapshots : List MarketSnapshot)
    (midpoint : Option ℚ) (order : OrderResult) (new_id : Nat) (r : Option Nat)
    (st' : Store)
    (h : Banana.execute_buy cfg st cand snapshots midpoint order new_id
          = .ok (r, st')) :
    (st' = st ∧ r = none) ∨
    (mark_as_skipped st cand.condition_id "rapid_jump" = .ok st' ∧ r = none) ∨
    (order.accepted = true ∧ ∃ current_price : ℚ, midpoint = some current_price ∧
      create_trade st
          (Banana.buy_trade_row cfg cand snapshots order new_id current_price)
        = .ok st' ∧ r = some new_id) := by
  simp only [Banana.execute_buy] at h
  split at h
  · exact Or.inl ⟨(except_ok_pair h).2, (except_ok_pair h).1⟩
  · split at h
    · exact Or.inl ⟨(except_ok_pair h).2, (except_ok_pair h).1⟩
    · split at h
      · exact Or.inl ⟨(except_ok_pair h).2, (except_ok_pair h).1⟩
      · rename_i current_price
        split at h
        · split at h
          · exact Except.noConfusion h
          · rename_i st'' hsk
            exact Or.inr (Or.inl ⟨(except_ok_pair h).2 ▸ hsk, (except_ok_pair h).1⟩)
        · split at h
          · exact Or.inl ⟨(except_ok_pair h).2, (except_ok_pair h).1⟩
          · split at h
            · exact Or.inl ⟨(except_ok_pair h).2, (except_ok_pair h).1⟩
            · split at h
              · rename_i hacc
                split at h
                · exact Except.noConfusion h
                · rename_i st'' hct
                  exact Or.inr (Or.inr ⟨hacc, current_price, rfl,
                    (except_ok_pair h).2 ▸ hct, (except_ok_pair h).1⟩)
              · exact Or.inl ⟨(except_ok_pair h).2, (except_ok_pair h).1⟩

lemma create_trade_ok (st : Store) (t : Trade) (st' : Store)
    (h : create_trade st t = .ok st') :
    st'.trades = st.trades ++ [t] ∧ st'.skipped_markets = st.skipped_markets ∧
      st.trades.any (fun u => u.condition_id == t.condition_id) = false := by
  unfold create_trade at h
  by_cases hc : st.trades.any (fun u => u.condition_id == t.condition_id) = true
  · simp [hc] at h
  · simp [hc] at h
    constructor
    · rw [← h]
    · constructor
      · rw [← h]
      · simpa using hc

lemma mark_as_skipped_ok (st : Store) (cid reason : String) (st' : Store)
    (h : mark_as_skipped st cid reason = .ok st') :
    st'.trades = st.trades ∧
      st'.skipped_markets = st.skipped_markets ++ [⟨cid, reason⟩] ∧
      st.skipped_markets.any (fun s => s.condition_id == cid) = false := by
  unfold mark_as_skipped at h
  by_cases hc : st.skipped_markets.any (fun s => s.condition_id == cid) = true
  · simp [hc] at h
  · simp [hc] at h
    refine ⟨?_, ?_, by simpa using hc⟩
    · rw [← h]
    · rw [← h]

lemma create_trade_preserves_unique (st : Store) (t : Trade) (st' : Store)
    (hu : trades_unique st) (h : create_trade st t = .ok st') :
    trades_unique st' := by
  obtain ⟨htr, _, hany⟩ := create_trade_ok st t st' h
  intro cid
  rw [htr, List.filter_append, List.length_append]
  by_cases hc : (t.condition_id == cid) = true
  · have hcid : t.condition_id = cid := by simpa using hc
    have hnil : st.trades.filter (fun u => u.condition_id == cid) = [] := by
      rw [List.filter_eq_nil_iff]
      intro u hu'
      have h2 := List.any_eq_false.mp hany u hu'
      rw [← hcid]
      exact h2
    rw [hnil]
    simpa using filter_singleton_length_le_one (fun u => u.condition_id == cid) t
  · have hnil : [t].filter (fun u => u.condition_id == cid) = [] := by
      simp [List.filter, hc]
    rw [hnil]
    simpa using hu cid

lemma mark_as_skipped_preserves_unique (st : Store) (cid reason : String)
    (st' : Store) (hu : skipped_unique st)
    (h : mark_as_skipped st cid reason = .ok st') : skipped_unique st' := by
  obtain ⟨_, hsk, hany⟩ := mark_as_skipped_ok st cid reason st' h
  intro c
  rw [hsk, List.filter_append, List.length_append]
  by_cases hc : ((⟨cid, reason⟩ : SkippedMarket).condition_id == c) = true
  · have hcid : cid = c := by simpa using hc
    have hnil : st.skipped_markets.filter (fun s => s.condition_id == c) = [] := by
      rw [List.filter_eq_nil_iff]
      intro s hs
      have h2 := List.any_eq_false.mp hany s hs
      rw [← hcid]
      exact h2
    rw [hnil]
    simpa using
      filter_singleton_length_le_one (fun s => s.condition_id == c)
        (⟨cid, reason⟩ : SkippedMarket)
  · have hnil : [(⟨cid, reason⟩ : SkippedMarket)].filter
        (fun s => s.condition_id == c) = [] := by
      simp [List.filter, hc]
    rw [hnil]
    simpa using hu c

lemma update_trade_status_trades_unique (st : Store) (trade_id : Nat)
    (new_status : TradeStatus) (hu : trades_unique st) :
    trades_unique (update_trade_status st trade_id new_status) := by
  intro cid
  unfold update_trade_status
  have hcomp : ((fun t : Trade => t.condition_id == cid) ∘
      (fun t => if t.id == trade_id then { t with status := new_status } else t)) =
      (fun t : Trade => t.condition_id == cid) := by
    funext t
    by_cases h : t.id = trade_id
    · simp [h]
    · simp [h]
  rw [List.filter_map, hcomp, List.length_map]
  exact hu cid

lemma trades_unique_of_eq {st st' : Store} (h : st'.trades = st.trades)
    (hu : trades_unique st) : trades_unique st' := by
  intro cid
  rw [h]
  exact hu cid

lemma skipped_unique_of_eq {st st' : Store}
    (h : st'.skipped_markets = st.skipped_markets) (hu : skipped_unique st) :
    skipped_unique st' := by
  intro cid
  rw [h]
  exact hu cid

lemma step_preserves_unique {st st' : Store} (hs : Step st st')
    (hu : trades_unique st ∧ skipped_unique st) :
    trades_unique st' ∧ skipped_unique st' := by
  cases hs with
  | buy_apple cfg st cand midpoint order new_id r st' h =>
      rcases apple_execute_buy_cases cfg st cand midpoint order new_id r st' h with
        ⟨rfl, -⟩ | ⟨hsk, -⟩ | ⟨-, p, -, hct, -⟩
      · exact hu
      · obtain ⟨htr, _, _⟩ := mark_as_skipped_ok st cand.condition_id "rapid_jump" st' hsk
        exact ⟨trades_unique_of_eq htr hu.1,
          mark_as_skipped_preserves_unique st cand.condition_id "rapid_jump" st' hu.2 hsk⟩
      · obtain ⟨_, hsk2, _⟩ := create_trade_ok st _ st' hct
        exact ⟨create_trade_preserves_unique st _ st' hu.1 hct,
          skipped_unique_of_eq hsk2 hu.2⟩
  | buy_banana cfg st cand snapshots midpoint order new_id r st' h =>
      rcases banana_execute_buy_cases cfg st cand snapshots midpoint order new_id r st' h with
        ⟨rfl, -⟩ | ⟨hsk, -⟩ | ⟨-, p, -, hct, -⟩
      · exact hu
      · obtain ⟨htr, _, _⟩ := mark_as_skipped_ok st cand.condition_id "rapid_jump" st' hsk
        exact ⟨trades_unique_of_eq htr hu.1,
          mark_as_skipped_preserves_unique st cand.condition_id "rapid_jump" st' hu.2 hsk⟩
      · obtain ⟨_, hsk2, _⟩ := create_trade_ok st _ st' hct
        exact ⟨create_trade_preserves_unique st _ st' hu.1 hct,
          skipped_unique_of_eq hsk2 hu.2⟩
  | create st t st' h =>
      obtain ⟨_, hsk2, _⟩ := create_trade_ok st t st' h
      exact ⟨create_trade_preserves_unique st t st' hu.1 h,
        skipped_unique_of_eq hsk2 hu.2⟩
  | skip st cid reason st' h =>
      obtain ⟨htr, _, _⟩ := mark_as_skipped_ok st cid reason st' h
      exact ⟨trades_unique_of_eq htr hu.1,
        mark_as_skipped_preserves_unique st cid reason st' hu.2 h⟩
  | update st trade_id new_status =>
      exact ⟨update_trade_status_trades_unique st trade_id new_status hu.1, hu.2⟩

lemma reachable_unique {st : Store} (hr : Reachable st) :
    trades_unique st ∧ skipped_unique st := by
  induction hr with
  | init =>
      constructor
      · intro cid
        simp [Store.empty]
      · intro cid
        simp [Store.empty]
  | step hr hs ih => exact step_preserves_unique hs ih

/-- C9: `calculate_momentum` returns `None` on every snapshot sequence of
length < 2 (including the empty one), and on every sequence of length ≥ 2
returns exactly `(newest.probability - oldest.probability) / len(snapshots)`,
where oldest is the first and newest the last element. -/
theorem momentum_insufficient_data_and_value (l : List MarketSnapshot) :
    (l.length < 2 → calculate_momentum l = none) ∧
    (2 ≤ l.length → ∃ oldest newest,
      l.head? = some oldest ∧ l.getLast? = some newest ∧
      calculate_momentum l =
        some ((newest.probability - oldest.probability) / (l.length : ℚ))) := by
  constructor
  · intro h
    simp [calculate_momentum, h]
  · intro h
    rcases l with - | ⟨a, t⟩
    · simp at h
    · have hne : (a :: t) ≠ [] := by simp
      have hg : (a :: t).getLast? = some ((a :: t).getLast hne) :=
        List.getLast?_eq_getLast _ hne
      refine ⟨a, (a :: t).getLast hne, rfl, hg, ?_⟩
      unfold calculate_momentum
      rw [if_neg (by omega), hg]
      rfl

/-- C9 witness: on `[0.10, 0.40]` the momentum is `(0.40 - 0.10) / 2 = 0.15`,
and on the empty sequence it is `None`. -/
theorem momentum_insufficient_data_and_value_witness :
    calculate_momentum [] = none ∧
    calculate_momentum [⟨10/100⟩, ⟨40/100⟩] = some (15/100) := by
  constructor
  · exact (momentum_insufficient_data_and_value []).1 (by decide)
  · obtain ⟨o, n, ho, hn, hv⟩ :=
      (momentum_insufficient_data_and_value [⟨10/100⟩, ⟨40/100⟩]).2 (by decide)
    rw [hv]
    have ho' : (⟨10/100⟩ : MarketSnapshot) = o := by
      simpa using ho
    have hn' : (⟨40/100⟩ : MarketSnapshot) = n := by
      simpa using hn
    rw [← ho', ← hn']
    norm_num

/-- C8: `get_long_momentum` applies `calculate_momentum` to the last
`long_window` snapshots; with fewer than `long_window` snapshots it falls back
to all available snapshots only when at least `2 × short_window` points exist,
else returns `None`. (Stated for positive `long_window`; the slice of the last
`long_window` elements is `drop (length - long_window)`.) -/
theorem long_momentum_window_and_fallback (cfg : MomentumConfig)
    (l : List MarketSnapshot) (hw : 0 < cfg.long_window) :
    (cfg.long_window ≤ l.length →
      get_long_momentum cfg l =
        calculate_momentum (l.drop (l.length - cfg.long_window))) ∧
    (l.length < cfg.long_window → 2 * cfg.short_window ≤ l.length →
      get_long_momentum cfg l = calculate_momentum l) ∧
    (l.length < cfg.long_window → l.length < 2 * cfg.short_window →
      get_long_momentum cfg l = none) := by
  refine ⟨?_, ?_, ?_⟩
  · intro h
    unfold get_long_momentum sliceLast
    rw [if_neg (by omega), if_neg (by omega)]
  · intro h1 h2
    unfold get_long_momentum
    rw [if_pos h1, if_pos (by omega)]
  · intro h1 h2
    unfold get_long_momentum
    rw [if_pos h1, if_neg (by omega)]

/-- C8 witness: with `short_window = 1`, `long_window = 4`, three snapshots are
below the long window but at least `2 × 1`, so the fallback computes momentum
over all three; a single snapshot is below `2 × 1`, giving `None`. -/
theorem long_momentum_window_and_fallback_witness :
    get_long_momentum ⟨true, 1, 4, 2/100, -(2/100)⟩ [⟨0⟩, ⟨10/100⟩, ⟨30/100⟩]
      = calculate_momentum [⟨0⟩, ⟨10/100⟩, ⟨30/100⟩] ∧
    get_long_momentum ⟨true, 1, 4, 2/100, -(2/100)⟩ [⟨0⟩] = none := by
  constructor
  · exact (long_momentum_window_and_fallback ⟨true, 1, 4, 2/100, -(2/100)⟩
      [⟨0⟩, ⟨10/100⟩, ⟨30/100⟩] (by decide)).2.1 (by decide) (by decide)
  · exact (long_momentum_window_and_fallback ⟨true, 1, 4, 2/100, -(2/100)⟩
      [⟨0⟩] (by decide)).2.2 (by decide) (by decide)

/-- C4: with the golden-cross threshold set to `t` and the dead-cross threshold
stored as `-t` (the source stores the dead threshold signed, default −0.02),
`detect_golden_cross` holds iff `s − l ≥ t`, `detect_dead_cross` holds iff
`s − l ≤ −t`, for `t > 0` the two crosses are mutually exclusive, and when
either momentum is `None` neither cross is detected. -/
theorem cross_detection_spec (cfg : MomentumConfig) (s l t : ℚ)
    (hg : cfg.golden_cross_threshold = t) (hd : cfg.dead_cross_threshold = -t) :
    (detect_golden_cross cfg (some s) (some l) = true ↔ t ≤ s - l) ∧
    (detect_dead_cross cfg (some s) (some l) = true ↔ s - l ≤ -t) ∧
    (0 < t → ¬(detect_golden_cross cfg (some s) (some l) = true ∧
      detect_dead_cross cfg (some s) (some l) = true)) ∧
    (∀ x : Option ℚ,
      detect_golden_cross cfg none x = false ∧
      detect_golden_cross cfg x none = false ∧
      detect_dead_cross cfg none x = false ∧
      detect_dead_cross cfg x none = false) := by
  refine ⟨?_, ?_, ?_, ?_⟩
  · simp [detect_golden_cross, hg]
  · simp [detect_dead_cross, hd]
  · intro ht ⟨h1, h2⟩
    rw [detect_golden_cross] at h1
    rw [detect_dead_cross] at h2
    simp [hg] at h1
    simp [hd] at h2
    linarith
  · intro x
    refine ⟨rfl, ?_, rfl, ?_⟩
    · cases x <;> rfl
    · cases x <;> rfl

/-- C4 witness: at the default thresholds (`t = 0.02`), momenta `0.05` and
`0.01` give a golden cross and no dead cross. -/
theorem cross_detection_spec_witness :
    (detect_golden_cross ⟨true, 3, 72, 2/100, -(2/100)⟩ (some (5/100)) (some (1/100))
        = true ↔ (2/100 : ℚ) ≤ 5/100 - 1/100) ∧
    ¬(detect_golden_cross ⟨true, 3, 72, 2/100, -(2/100)⟩ (some (5/100)) (some (1/100))
        = true ∧
      detect_dead_cross ⟨true, 3, 72, 2/100, -(2/100)⟩ (some (5/100)) (some (1/100))
        = true) := by
  have h := cross_detection_spec ⟨true, 3, 72, 2/100, -(2/100)⟩ (5/100) (1/100)
    (2/100) rfl rfl
  exact ⟨h.1, h.2.2.1 (by norm_num)⟩

/-- C2: `get_entry_signal` — momentum disabled means always enter
(`momentum_disabled`); unavailable short momentum means never enter
(`insufficient_short_data`); unavailable long momentum means enter iff the
short momentum is positive (`short_momentum_positive` / `short_momentum_negative`);
otherwise enter iff a golden cross holds (`golden_cross` / `no_signal`);
the reason is always one of those six codes. -/
theorem entry_signal_spec (cfg : MomentumConfig) (l : List MarketSnapshot)
    (p : ℚ) :
    (cfg.enabled = false → get_entry_signal cfg l p = (true, "momentum_disabled")) ∧
    (cfg.enabled = true → get_short_momentum cfg l = none →
      get_entry_signal cfg l p = (false, "insufficient_short_data")) ∧
    (∀ s : ℚ, cfg.enabled = true → get_short_momentum cfg l = some s →
      get_long_momentum cfg l = none →
      get_entry_signal cfg l p =
        if 0 < s then (true, "short_momentum_positive")
        else (false, "short_momentum_negative")) ∧
    (∀ s lm : ℚ, cfg.enabled = true → get_short_momentum cfg l = some s →
      get_long_momentum cfg l = some lm →
      get_entry_signal cfg l p =
        if detect_golden_cross cfg (some s) (some lm) then (true, "golden_cross")
        else (false, "no_signal")) ∧
    ((get_entry_signal cfg l p).2 ∈
      (["momentum_disabled", "insufficient_short_data", "short_momentum_positive",
        "short_momentum_negative", "golden_cross", "no_signal"] : List String)) := by
  refine ⟨?_, ?_, ?_, ?_, ?_⟩
  · intro h
    simp [get_entry_signal, h]
  · intro h1 h2
    simp [get_entry_signal, h1, h2]
  · intro s h1 h2 h3
    simp [get_entry_signal, h1, h2, h3]
  · intro s lm h1 h2 h3
    simp only [get_entry_signal, h1, h2, h3, Bool.not_true, Bool.false_eq_true,
      if_false]
  · unfold get_entry_signal
    split
    · simp
    · split
      · simp
      · split
        · split
          · simp
          · simp
        · split
          · simp
          · simp

/-- C2 witness: concrete inputs exercising the disabled, no-short-data and
short-positive branches (config `⟨enabled, short_window, long_window, thresholds⟩`). -/
theorem entry_signal_spec_witness :
    get_entry_signal ⟨false, 3, 72, 2/100, -(2/100)⟩ [] 0
      = (true, "momentum_disabled") ∧
    get_entry_signal ⟨true, 3, 72, 2/100, -(2/100)⟩ [] 0
      = (false, "insufficient_short_data") ∧
    get_entry_signal ⟨true, 2, 10, 2/100, -(2/100)⟩ [⟨0⟩, ⟨1/2⟩] 0
      = (true, "short_momentum_positive") := by
  refine ⟨?_, ?_, ?_⟩
  · exact (entry_signal_spec ⟨false, 3, 72, 2/100, -(2/100)⟩ [] 0).1 rfl
  · exact (entry_signal_spec ⟨true, 3, 72, 2/100, -(2/100)⟩ [] 0).2.1 rfl (by decide)
  · have h := (entry_signal_spec ⟨true, 2, 10, 2/100, -(2/100)⟩ [⟨0⟩, ⟨1/2⟩] 0).2.2.1
      (1/4) rfl
      (by norm_num [get_short_momentum, sliceLast, calculate_momentum])
      (by norm_num [get_long_momentum, sliceLast, calculate_momentum])
    rw [h, if_pos (by norm_num)]

/-- C1: `get_exit_signal` evaluates in strict priority order over
`pnl = (current − entry) / entry` (with `entry = 0` giving `pnl = 0`):
stop-loss when `pnl ≤ stop_loss`, else take-profit when `pnl ≥ take_profit`,
else dead-cross exactly when momentum is enabled, both momenta are computable
and a dead cross holds, else hold; in particular when the stop-loss and
take-profit conditions hold simultaneously, stop-loss wins. -/
theorem exit_signal_priority (cfg : MomentumConfig) (snaps : List MarketSnapshot)
    (entry current tp sl : ℚ) :
    (get_exit_signal cfg snaps entry current tp sl =
      (let pnl : ℚ := if entry = 0 then 0 else (current - entry) / entry
       if pnl ≤ sl then (true, "stop_loss")
       else if tp ≤ pnl then (true, "take_profit")
       else if cfg.enabled = true ∧
           (get_short_momentum cfg snaps).isSome = true ∧
           (get_long_momentum cfg snaps).isSome = true ∧
           detect_dead_cross cfg (get_short_momentum cfg snaps)
             (get_long_momentum cfg snaps) = true then
         (true, "dead_cross")
       else (false, "hold"))) ∧
    ((if entry = 0 then (0:ℚ) else (current - entry) / entry) ≤ sl →
      tp ≤ (if entry = 0 then (0:ℚ) else (current - entry) / entry) →
      get_exit_signal cfg snaps entry current tp sl = (true, "stop_loss")) := by
  have hmain : get_exit_signal cfg snaps entry current tp sl =
      (let pnl : ℚ := if entry = 0 then 0 else (current - entry) / entry
       if pnl ≤ sl then (true, "stop_loss")
       else if tp ≤ pnl then (true, "take_profit")
       else if cfg.enabled = true ∧
           (get_short_momentum cfg snaps).isSome = true ∧
           (get_long_momentum cfg snaps).isSome = true ∧
           detect_dead_cross cfg (get_short_momentum cfg snaps)
             (get_long_momentum cfg snaps) = true then
         (true, "dead_cross")
       else (false, "hold")) := by
    unfold get_exit_signal
    by_cases h1 : (if entry = 0 then (0:ℚ) else (current - entry) / entry) ≤ sl
    · simp only [h1, if_true]
    · simp only [h1, if_false]
      by_cases h2 : tp ≤ (if entry = 0 then (0:ℚ) else (current - entry) / entry)
      · simp only [h2, if_true]
      · simp only [h2, if_false]
        cases hE : cfg.enabled with
        | false => simp [hE]
        | true =>
          simp only [hE, if_true]
          cases hS : get_short_momentum cfg snaps with
          | none => simp [hS]
          | some s =>
            cases hL : get_long_momentum cfg snaps with
            | none => simp [hL]
            | some lm =>
              by_cases hD : detect_dead_cross cfg (some s) (some lm) = true
              · simp [hD]
              · simp [hD]
  refine ⟨hmain, ?_⟩
  intro hsl htp
  rw [hmain]
  simp only [hsl, if_true]

/-- C1 witness: entry 1, current 0.8 gives `pnl = −0.2`; with
`stop_loss = −0.1` and a pathological `take_profit = −0.3` both conditions
hold and the result is stop-loss. -/
theorem exit_signal_priority_witness :
    get_exit_signal ⟨true, 3, 72, 2/100, -(2/100)⟩ [] 1 (8/10) (-(3/10)) (-(1/10))
      = (true, "stop_loss") := by
  exact (exit_signal_priority ⟨true, 3, 72, 2/100, -(2/100)⟩ [] 1 (8/10)
    (-(3/10)) (-(1/10))).2 (by norm_num) (by norm_num)

/-- C10: in the momentum variant's `execute_sell`, a re-fetched price at or
above the sell threshold sells with exit reason `threshold` without evaluating
stop-loss, take-profit or dead-cross; the momentum exit conditions
(`get_exit_signal`) are consulted only when the price is below the threshold. -/
theorem sell_threshold_checked_first (cfg : Banana.TradingConfig)
    (buy_price : ℚ) (snaps : List MarketSnapshot) (current_price : ℚ) :
    (cfg.sell_threshold ≤ current_price →
      Banana.execute_sell_decision cfg buy_price snaps current_price
        = (true, "threshold")) ∧
    (current_price < cfg.sell_threshold → cfg.momentum.enabled = true →
      Banana.execute_sell_decision cfg buy_price snaps current_price
        = get_exit_signal cfg.momentum snaps buy_price current_price
            cfg.take_profit_percent cfg.stop_loss_percent) := by
  constructor
  · intro h
    unfold Banana.execute_sell_decision
    rw [if_pos h]
  · intro h hE
    unfold Banana.execute_sell_decision
    rw [if_neg (by exact not_le.mpr h), if_pos hE]

/-- C10 witness: at the default sell threshold 0.97, price 0.98 sells with
reason `threshold` even though the pnl against entry 0.5 would also trigger
take-profit; price 0.9 defers to `get_exit_signal`. -/
theorem sell_threshold_checked_first_witness :
    Banana.execute_sell_decision {} (1/2) [] (98/100) = (true, "threshold") ∧
    Banana.execute_sell_decision {} (1/2) [] (9/10)
      = get_exit_signal ({} : Banana.TradingConfig).momentum [] (1/2) (9/10)
          ({} : Banana.TradingConfig).take_profit_percent
          ({} : Banana.TradingConfig).stop_loss_percent := by
  constructor
  · exact (sell_threshold_checked_first {} (1/2) [] (98/100)).1 (by norm_num)
  · exact (sell_threshold_checked_first {} (1/2) [] (9/10)).2 (by norm_num) rfl

/-- C5 counterexample: the claim says valid iff
`min_hours < hours_until_resolution ≤ max_hours`, but the source only rejects
`hours_left < entry_hours_min`; at exactly `hours_left = min_hours = 4`
(resolution 14400 s away, `max = 24`, `min = 4`) the code accepts the entry
while the claimed strict bound `4 < 4` is false. -/
theorem time_entry_boundary_counterexample :
    (is_valid_time_entry (some 14400) 0 24 4).1 = true ∧
    get_hours_until_resolution (some 14400) 0 = some 4 ∧
    ¬((4:ℚ) < 4) := by
  refine ⟨?_, ?_, by norm_num⟩
  · norm_num [is_valid_time_entry, get_hours_until_resolution]
  · norm_num [get_hours_until_resolution]

/-- C5 (amended): `is_valid_time_entry` is valid iff
`0 < hours_until_resolution`, `min_hours ≤ hours_until_resolution` (inclusive)
and `hours_until_resolution ≤ max_hours`; otherwise it is invalid with reason
`no_end_date` when the resolution time is absent, `already_resolved` when
`hours ≤ 0`, `too_early` when `0 < hours` and `hours > max_hours` (the
resolved check runs first), and `too_late` when `hours < min_hours` (reasons
carrying the hours left). -/
theorem time_entry_window_spec (e : Option ℚ) (now : ℚ)
    (entry_hours_max entry_hours_min : Int) :
    ((is_valid_time_entry e now entry_hours_max entry_hours_min).1 = true ↔
      ∃ h : ℚ, get_hours_until_resolution e now = some h ∧
        0 < h ∧ (entry_hours_min : ℚ) ≤ h ∧ h ≤ (entry_hours_max : ℚ)) ∧
    (e = none →
      is_valid_time_entry e now entry_hours_max entry_hours_min
        = (false, .no_end_date, none)) ∧
    (∀ h : ℚ, get_hours_until_resolution e now = some h →
      (h ≤ 0 →
        is_valid_time_entry e now entry_hours_max entry_hours_min
          = (false, .already_resolved, some h)) ∧
      (0 < h → (entry_hours_max : ℚ) < h →
        is_valid_time_entry e now entry_hours_max entry_hours_min
          = (false, .too_early h, some h)) ∧
      (0 < h → h ≤ (entry_hours_max : ℚ) → h < (entry_hours_min : ℚ) →
        is_valid_time_entry e now entry_hours_max entry_hours_min
          = (false, .too_late h, some h)) ∧
      (0 < h → h ≤ (entry_hours_max : ℚ) → (entry_hours_min : ℚ) ≤ h →
        is_valid_time_entry e now entry_hours_max entry_hours_min
          = (true, .time_based h, some h))) := by
  refine ⟨?_, ?_, ?_⟩
  · cases he : e with
    | none =>
        simp [is_valid_time_entry, get_hours_until_resolution]
    | some t =>
        simp only [is_valid_time_entry, get_hours_until_resolution]
        constructor
        · intro hv
          refine ⟨(t - now) / 3600, rfl, ?_⟩
          by_cases h0 : (t - now) / 3600 ≤ 0
          · rw [if_pos h0] at hv
            simp at hv
          · rw [if_neg h0] at hv
            by_cases hmax : (entry_hours_max : ℚ) < (t - now) / 3600
            · rw [if_pos hmax] at hv
              simp at hv
            · rw [if_neg hmax] at hv
              by_cases hmin : (t - now) / 3600 < (entry_hours_min : ℚ)
              · rw [if_pos hmin] at hv
                simp at hv
              · exact ⟨by linarith [not_le.mp h0], by linarith [not_lt.mp hmin],
                  not_lt.mp hmax⟩
        · rintro ⟨h, hh, h0, hmin, hmax⟩
          obtain rfl : (t - now) / 3600 = h := by
            injection hh
          rw [if_neg (by linarith), if_neg (by linarith), if_neg (by linarith)]
  · intro he
    subst he
    rfl
  · intro h hh
    cases he : e with
    | none => rw [he] at hh; exact Option.noConfusion hh
    | some t =>
        rw [he] at hh
        have ht : (t - now) / 3600 = h := by
          simpa [get_hours_until_resolution] using hh
        refine ⟨?_, ?_, ?_, ?_⟩
        · intro h0
          simp only [is_valid_time_entry, get_hours_until_resolution, ht]
          rw [if_pos h0]
        · intro h0 hmax
          simp only [is_valid_time_entry, get_hours_until_resolution, ht]
          rw [if_neg (by linarith), if_pos hmax]
        · intro h0 hmax hmin
          simp only [is_valid_time_entry, get_hours_until_resolution, ht]
          rw [if_neg (by linarith), if_neg (by linarith), if_pos hmin]
        · intro h0 hmax hmin
          simp only [is_valid_time_entry, get_hours_until_resolution, ht]
          rw [if_neg (by linarith), if_neg (by linarith), if_neg (by linarith)]

/-- C5 witness: resolution 36000 s (10 h) away with `max = 24`, `min = 4` is a
valid entry; 90000 s (25 h) away is `too_early`. -/
theorem time_entry_window_spec_witness :
    is_valid_time_entry (some 36000) 0 24 4 = (true, .time_based 10, some 10) ∧
    is_valid_time_entry (some 90000) 0 24 4 = (false, .too_early 25, some 25) := by
  constructor
  · exact (((time_entry_window_spec (some 36000) 0 24 4).2.2 10
      (by norm_num [get_hours_until_resolution])).2.2.2) (by norm_num)
      (by norm_num) (by norm_num)
  · exact (((time_entry_window_spec (some 90000) 0 24 4).2.2 25
      (by norm_num [get_hours_until_resolution])).2.1) (by norm_num) (by norm_num)

/-- C6 counterexample: `mark_as_skipped` is a plain insert into a table whose
`condition_id` column is `unique=True`; calling it for a market that already
has a SkippedMarket row does fail (IntegrityError, modelled as
`unique_violation`) instead of ignoring/upserting the duplicate. -/
theorem mark_as_skipped_duplicate_fails :
    mark_as_skipped ⟨[], [⟨"m1", "rapid_jump"⟩]⟩ "m1" "already_traded"
      = .error .unique_violation := by
  rfl

/-- C6 (amended): `mark_as_skipped` inserts a row when none exists for the
identifier — afterwards exactly one SkippedMarket row exists for it — and
fails with a uniqueness violation (leaving the store unchanged) when a row
already exists; it is not idempotent on duplicates. -/
theorem mark_as_skipped_spec (st : Store) (cid reason : String) :
    ((∀ s ∈ st.skipped_markets, s.condition_id ≠ cid) →
      mark_as_skipped st cid reason
        = .ok { st with
            skipped_markets := st.skipped_markets ++ [(⟨cid, reason⟩ : SkippedMarket)] } ∧
      (((st.skipped_markets ++ [(⟨cid, reason⟩ : SkippedMarket)]).filter
        (fun s => s.condition_id == cid)).length = 1)) ∧
    ((∃ s ∈ st.skipped_markets, s.condition_id = cid) →
      mark_as_skipped st cid reason = .error .unique_violation) := by
  constructor
  · intro hnone
    have hany : st.skipped_markets.any (fun s => s.condition_id == cid) = false := by
      rw [List.any_eq_false]
      intro s hs
      simpa using hnone s hs
    constructor
    · unfold mark_as_skipped
      rw [if_neg (by rw [hany]; exact Bool.false_ne_true)]
    · rw [List.filter_append, List.length_append]
      have h1 : st.skipped_markets.filter (fun s => s.condition_id == cid) = [] := by
        rw [List.filter_eq_nil_iff]
        intro s hs
        exact List.any_eq_false.mp hany s hs
      have h2 : ([(⟨cid, reason⟩ : SkippedMarket)].filter
          (fun s => s.condition_id == cid)) = [⟨cid, reason⟩] := by
        simp [List.filter]
      rw [h1, h2]
      rfl
  · rintro ⟨s, hs, hcid⟩
    have hany : st.skipped_markets.any (fun u => u.condition_id == cid) = true := by
      rw [List.any_eq_true]
      exact ⟨s, hs, by simpa using hcid⟩
    unfold mark_as_skipped
    rw [if_pos hany]

/-- C6 witness: inserting for a fresh market id succeeds and leaves exactly
one row for it. -/
theorem mark_as_skipped_spec_witness :
    mark_as_skipped ⟨[], [⟨"m1", "rapid_jump"⟩]⟩ "m2" "rapid_jump"
      = .ok ⟨[], [⟨"m1", "rapid_jump"⟩, ⟨"m2", "rapid_jump"⟩]⟩ ∧
    (([⟨"m1", "rapid_jump"⟩, ⟨"m2", "rapid_jump"⟩] : List SkippedMarket).filter
      (fun s => s.condition_id == "m2")).length = 1 := by
  have h := (mark_as_skipped_spec ⟨[], [⟨"m1", "rapid_jump"⟩]⟩ "m2" "rapid_jump").1
    (by decide)
  exact ⟨h.1, h.2⟩

/-- C7: `golden-banana` `execute_buy` computes `shares = buy_amount_usdc / price`
at the re-verified live price and returns none with the store untouched when
`shares < MIN_ORDER_SIZE = 5`; more generally no Trade row is created unless
the placed order was accepted, and on acceptance exactly the HOLDING Trade row
carrying the candidate's entry metadata is appended and its id returned. -/
theorem execute_buy_min_order_and_acceptance (cfg : Banana.TradingConfig)
    (st : Store) (cand : Banana.Candidate) (snaps : List MarketSnapshot)
    (price : ℚ) (midpoint : Option ℚ) (order : OrderResult) (new_id : Nat) :
    (is_already_traded st cand.condition_id = false →
      ¬(0 < cfg.max_positions ∧ cfg.max_positions ≤ (get_position_count st : Int)) →
      ¬(cfg.sell_threshold < price) → ¬(price < cfg.buy_threshold) →
      cfg.buy_amount_usdc / price < MIN_ORDER_SIZE →
      Banana.execute_buy cfg st cand snaps (some price) order new_id
        = .ok (none, st)) ∧
    (∀ (r : Option Nat) (st' : Store),
      Banana.execute_buy cfg st cand snaps midpoint order new_id = .ok (r, st') →
      order.accepted = false → st'.trades = st.trades ∧ r = none) ∧
    (∀ (r : Option Nat) (st' : Store),
      Banana.execute_buy cfg st cand snaps midpoint order new_id = .ok (r, st') →
      st'.trades = st.trades ∨
      (order.accepted = true ∧ ∃ cp : ℚ, midpoint = some cp ∧
        st'.trades = st.trades
          ++ [Banana.buy_trade_row cfg cand snaps order new_id cp] ∧
        (Banana.buy_trade_row cfg cand snaps order new_id cp).status
          = TradeStatus.holding ∧
        (Banana.buy_trade_row cfg cand snaps order new_id cp).condition_id
          = cand.condition_id ∧
        (Banana.buy_trade_row cfg cand snaps order new_id cp).entry_reason
          = some (cand.entry_reason.getD "unknown") ∧
        (Banana.buy_trade_row cfg cand snaps order new_id cp).buy_price = some cp ∧
        (Banana.buy_trade_row cfg cand snaps order new_id cp).buy_shares
          = some (cfg.buy_amount_usdc / cp) ∧
        r = some new_id)) := by
  refine ⟨?_, ?_, ?_⟩
  · intro h1 h2 h3 h4 h5
    simp only [Banana.execute_buy, h1, Bool.false_eq_true, if_false,
      if_neg h2, if_neg h3, if_neg h4, if_pos h5]
  · intro r st' h hacc
    rcases banana_execute_buy_cases cfg st cand snaps midpoint order new_id r st' h with
      ⟨rfl, hr⟩ | ⟨hsk, hr⟩ | ⟨hacc2, -⟩
    · exact ⟨rfl, hr⟩
    · exact ⟨(mark_as_skipped_ok st cand.condition_id "rapid_jump" st' hsk).1, hr⟩
    · rw [hacc] at hacc2
      exact Bool.noConfusion hacc2
  · intro r st' h
    rcases banana_execute_buy_cases cfg st cand snaps midpoint order new_id r st' h with
      ⟨rfl, -⟩ | ⟨hsk, -⟩ | ⟨hacc, cp, hmp, hct, hr⟩
    · exact Or.inl rfl
    · exact Or.inl (mark_as_skipped_ok st cand.condition_id "rapid_jump" st' hsk).1
    · exact Or.inr ⟨hacc, cp, hmp, (create_trade_ok st _ st' hct).1, rfl, rfl, rfl,
        rfl, rfl, hr⟩

/-- C7 witness: the spec's own example — `buy_amount_usdc = 1`, live price 0.5
(within the default 0.85–0.97 thresholds? no: price 0.86 used so the threshold
checks pass) gives `shares = 1/0.86 < 5`, so the buy is rejected with no Trade
row; and an unaccepted order never changes the trades table. -/
theorem execute_buy_min_order_and_acceptance_witness :
    Banana.execute_buy
        { buy_threshold := 85/100, sell_threshold := 97/100, buy_amount_usdc := 1,
          max_positions := -1, take_profit_percent := 7/100,
          stop_loss_percent := -(10/100), momentum := {} }
        Store.empty
        ⟨"c1", "t1", 86/100, "Yes", "q", "slug", 200000, none⟩ [] (some (86/100))
        ⟨false, none⟩ 1
      = .ok (none, Store.empty) := by
  exact (execute_buy_min_order_and_acceptance
    { buy_threshold := 85/100, sell_threshold := 97/100, buy_amount_usdc := 1,
      max_positions := -1, take_profit_percent := 7/100,
      stop_loss_percent := -(10/100), momentum := {} }
    Store.empty ⟨"c1", "t1", 86/100, "Yes", "q", "slug", 200000, none⟩ []
    (86/100) (some (86/100)) ⟨false, none⟩ 1).1
    rfl (by norm_num) (by norm_num) (by norm_num) (by norm_num [MIN_ORDER_SIZE])

lemma length_filter_and_le {α : Type} (p q : α → Bool) (l : List α) :
    (l.filter (fun a => p a && q a)).length ≤ (l.filter p).length := by
  induction l with
  | nil => simp
  | cons a t ih =>
      by_cases hp : p a = true
      · by_cases hq : q a = true
        · simp only [List.filter, hp, hq, Bool.and_self, List.length_cons]
          omega
        · simp only [List.filter, hp, hq, Bool.and_false, List.length_cons]
          omega
      · simp only [List.filter, hp, Bool.false_and]
        exact ih

/-- C3: in every reachable store state at most one Trade row per condition id
is in non-terminal status (the unique column even gives at most one in any
status); `is_already_traded` is true exactly when some Trade row (any status)
or some SkippedMarket row exists for the id; and `execute_buy` consults this
gate first, so a second buy attempt for an already-present market returns none
and leaves the store untouched. -/
theorem at_most_one_trade_per_market (st : Store) (hr : Reachable st) :
    (∀ cid : String,
      ((st.trades.filter
        (fun t => t.condition_id == cid && t.status.nonTerminal)).length ≤ 1)) ∧
    (∀ cid : String,
      ((st.trades.filter (fun t => t.condition_id == cid)).length ≤ 1)) ∧
    (∀ cid : String, is_already_traded st cid = true ↔
      ((∃ t ∈ st.trades, t.condition_id = cid) ∨
        (∃ s ∈ st.skipped_markets, s.condition_id = cid))) ∧
    (∀ (cfg : Apple.TradingConfig) (cand : Apple.Candidate) (midpoint : Option ℚ)
        (order : OrderResult) (new_id : Nat),
      is_already_traded st cand.condition_id = true →
      Apple.execute_buy cfg st cand midpoint order new_id = .ok (none, st)) := by
  have hu := (reachable_unique hr).1
  refine ⟨?_, hu, ?_, ?_⟩
  · intro cid
    exact le_trans
      (length_filter_and_le (fun t => t.condition_id == cid)
        (fun t => t.status.nonTerminal) st.trades) (hu cid)
  · intro cid
    unfold is_already_traded get_by_condition_id
    rw [Bool.or_eq_true, Option.isSome_iff_exists, Option.isSome_iff_exists]
    constructor
    · rintro (⟨t, ht⟩ | ⟨s, hs⟩)
      · exact Or.inl ⟨t, List.mem_of_find?_eq_some ht,
          by simpa using List.find?_some ht⟩
      · exact Or.inr ⟨s, List.mem_of_find?_eq_some hs,
          by simpa using List.find?_some hs⟩
    · rintro (⟨t, ht, hcid⟩ | ⟨s, hs, hcid⟩)
      · cases ho : st.trades.find? (fun u => u.condition_id == cid) with
        | none => exact absurd (List.find?_eq_none.mp ho t ht) (by simpa using hcid)
        | some u => exact Or.inl ⟨u, rfl⟩
      · cases ho : st.skipped_markets.find? (fun u => u.condition_id == cid) with
        | none => exact absurd (List.find?_eq_none.mp ho s hs) (by simpa using hcid)
        | some u => exact Or.inr ⟨u, rfl⟩
  · intro cfg cand midpoint order new_id hgate
    simp only [Apple.execute_buy, hgate, if_true]

/-- C3 witness: the store holding one skipped market `m1` is reachable (one
`mark_as_skipped` step from the empty store); its gate blocks a second buy for
`m1`. -/
theorem at_most_one_trade_per_market_witness :
    is_already_traded ⟨[], [⟨"m1", "rapid_jump"⟩]⟩ "m1" = true ∧
    Apple.execute_buy {} ⟨[], [⟨"m1", "rapid_jump"⟩]⟩
        ⟨"m1", "t1", 86/100, "Yes", "q", "slug", 200000⟩ (some (86/100))
        ⟨true, some "o1"⟩ 7
      = .ok (none, ⟨[], [⟨"m1", "rapid_jump"⟩]⟩) := by
  have hreach : Reachable ⟨[], [⟨"m1", "rapid_jump"⟩]⟩ :=
    Reachable.step Reachable.init
      (Step.skip Store.empty "m1" "rapid_jump" ⟨[], [⟨"m1", "rapid_jump"⟩]⟩ rfl)
  have h := at_most_one_trade_per_market ⟨[], [⟨"m1", "rapid_jump"⟩]⟩ hreach
  have hgate : is_already_traded ⟨[], [⟨"m1", "rapid_jump"⟩]⟩ "m1" = true := by
    exact (h.2.2.1 "m1").mpr (Or.inr ⟨⟨"m1", "rapid_jump"⟩, by simp, rfl⟩)
  exact ⟨hgate, h.2.2.2 {} ⟨"m1", "t1", 86/100, "Yes", "q", "slug", 200000⟩
    (some (86/100)) ⟨true, some "o1"⟩ 7 hgate⟩

end GoldenBurger
